import Mathlib

/-!
Shallow embedding of the wallet bridge in `src/rust/src/api.rs`
(BitcoinZ-black-amber): the engine-handle registry, the command
dispatcher, the send-transaction flow, the progress relay, the
lifecycle operations and the `get_height` parsing helper.

External collaborators (the `zecwalletlitelib` engine, its
configuration resolver and `serde_json`) are modelled as opaque
parameters: an `Except`-valued function for each fallible call.
Strings are modelled as Lean `String`s (lists of `Char`); the
byte-indexed Rust slicing in the seed extractor coincides with char
indexing on the ASCII data it handles.  Machine integers (`u64`,
`u32`, `i64`) are modelled as `ℕ` / `ℤ`; the one place a narrowing
cast occurs (`height as u32`) is rendered explicitly as `% 2 ^ 32`.
-/

/-- A progress event as serialized by the bridge: the JSON object
`\x7bstatus, progress, total, error, txid\x7d` that every
`send_progress_update` call site in `api.rs` formats.  Each publish
site in the source emits a fixed JSON literal; the model carries the
structured form of that literal. -/
structure ProgressEvent where
  status : String
  progress : ℕ
  total : ℕ
  error : Option String
  txid : Option String
deriving DecidableEq

/-- Model of the external `LightClient` engine instance held by the
registry (`Arc<LightClient<MainNetwork>>`).  Only the entry points the
bridge calls are modelled; each is an arbitrary function, since the
engine is an opaque collaborator. -/
structure ClientM where
  /-- `commands::do_user_command(&command, &args_vec, lightclient)`. -/
  command : String → List String → String
  /-- `lightclient.do_send(vec![(address, amount_u64, memo)])`:
  returns a txid or an error message. -/
  doSend : String → ℕ → Option String → Except String String
  /-- `lightclient.do_seed_phrase_sync().to_string()`. -/
  seedPhraseSync : Except String String

/-- The exact uninitialized-registry error result of `execute`
(api.rs line 309). -/
def walletNotInitialized : String := "\x7b\"error\": \"Wallet not initialized\"\x7d"

/-- Accumulating scanner behind `splitWhitespace`: `cur` holds the
characters of the token in progress, reversed. -/
def splitWsAux : List Char → List Char → List String
  | [], cur => if cur.isEmpty then [] else [String.mk cur.reverse]
  | c :: cs, cur =>
    if c.isWhitespace then
      if cur.isEmpty then splitWsAux cs [] else String.mk cur.reverse :: splitWsAux cs []
    else splitWsAux cs (c :: cur)

/-- Rust `str::split_whitespace`: split at whitespace characters and
drop the empty substrings (the Rust iterator never yields empties). -/
def splitWhitespace (s : String) : List String :=
  splitWsAux s.data []

/-- Rust `args.starts_with('[')`: the first character is `[`. -/
def startsWithBracket (args : String) : Bool :=
  match args.data with
  | c :: _ => c = '['
  | [] => false

/-- Argument tokenization of `execute` (api.rs lines 312-320): empty
argument string gives no tokens; the `send` verb with a `[`-prefixed
argument is forwarded as a single token; otherwise whitespace
splitting. -/
def tokenize (command args : String) : List String :=
  if args.data.isEmpty then []
  else if command == "send" && startsWithBracket args then [args]
  else splitWhitespace args

/-- `execute` (api.rs lines 300-324): the command dispatcher.  The
registry slot is modelled as `Option ClientM`; an empty slot yields
the fixed error result before any tokenization or engine call. -/
def execute (reg : Option ClientM) (command args : String) : String :=
  match reg with
  | none => walletNotInitialized
  | some lc => lc.command command (tokenize command args)

/-- `str::replace("\"", "\\\"")` as used on engine error messages in
`send_transaction` (api.rs lines 412, 416). -/
def escapeQuotes (s : String) : String :=
  String.mk (s.data.foldr (fun c acc => if c = '"' then '\\' :: '"' :: acc else c :: acc) [])

/-- `send_transaction` (api.rs lines 360-420).  The result is the
returned JSON string together with the list of progress events passed
to `send_progress_update`, in program order (the `let _ =` publishes
ignore the relay's own result, so the trace records every attempted
publish).  `amount` is an `i64`; in the non-negative branch
`amount as u64` is the identity, rendered as `Int.toNat`. -/
def send_transaction (reg : Option ClientM) (address : String) (amount : ℤ)
    (memo : Option String) : String × List ProgressEvent :=
  let e0 : ProgressEvent := ⟨"sending", 0, 100, none, none⟩
  match reg with
  | none =>
    (walletNotInitialized,
     [e0, ⟨"error", 0, 100, some "Wallet not initialized", none⟩])
  | some lc =>
    if amount < 0 then
      ("\x7b\"error\": \"Invalid amount: cannot be negative\"\x7d",
       [e0, ⟨"error", 0, 100, some "Invalid amount", none⟩])
    else
      match lc.doSend address amount.toNat memo with
      | .ok txid =>
        ("\x7b\"txid\": \"" ++ txid ++ "\"\x7d",
         [e0, e0, ⟨"sending", 10, 100, none, none⟩, ⟨"sending", 90, 100, none, none⟩,
          ⟨"completed", 100, 100, none, some txid⟩])
      | .error e =>
        ("\x7b\"error\": \"" ++ escapeQuotes e ++ "\"\x7d",
         [e0, e0, ⟨"sending", 10, 100, none, none⟩,
          ⟨"error", 0, 100, some (escapeQuotes e), none⟩])

/-- The trace of progress events a `send_transaction` invocation
publishes to the relay. -/
def sendTrace (reg : Option ClientM) (address : String) (amount : ℤ)
    (memo : Option String) : List ProgressEvent :=
  (send_transaction reg address amount memo).2

/-- Non-decreasing check on a list of naturals. -/
def nonDecrB : List ℕ → Bool
  | [] => true
  | [_] => true
  | a :: b :: rest => Nat.ble a b && nonDecrB (b :: rest)

/-- The non-error events of a trace (status `sending` or `completed`). -/
def okEvents (tr : List ProgressEvent) : List ProgressEvent :=
  tr.filter (fun ev => ev.status != "error")

/-- Last element of a trace, if any. -/
def lastEvent : List ProgressEvent → Option ProgressEvent
  | [] => none
  | [ev] => some ev
  | _ :: ev :: rest => lastEvent (ev :: rest)

/-- A trace terminates correctly when its last event is `completed`
with progress 100, or carries the `error` status. -/
def terminalOkB (tr : List ProgressEvent) : Bool :=
  match lastEvent tr with
  | some ev => (ev.status == "completed" && ev.progress == 100) || ev.status == "error"
  | none => false

/-- State of the progress relay: `PROGRESS_SENDER` is `none` when no
broadcast channel was ever installed, `some n` when a channel with
`n` live receiver handles is installed.  (A tokio broadcast `send`
succeeds exactly when at least one receiver handle is alive.) -/
structure RelayState where
  channel : Option ℕ
deriving DecidableEq

/-- `init_progress_stream` (api.rs lines 518-529): creates
`broadcast::channel(100)` and stores the sender.  The local `_rx`
receiver is dropped when the function returns, so the installed
channel starts with zero live receivers.  (Mutex poisoning, the only
other source branch, cannot occur absent a panic and is not
modelled.) -/
def init_progress_stream (_st : RelayState) : String × RelayState :=
  ("OK", ⟨some 0⟩)

/-- `send_progress_update` (api.rs lines 575-598): publish to the
relay.  With no installed sender it returns the fixed error result —
it does not install a channel.  With an installed channel,
`sender.send` succeeds iff a receiver is alive; tokio's
`SendError` displays as `channel closed`. -/
def send_progress_update (st : RelayState) (_progress_data : String) :
    String × RelayState :=
  match st.channel with
  | none => ("Error: No sender initialized", st)
  | some n => if 0 < n then ("OK", st) else ("Error: channel closed", st)

/-- The percentage computation of `emit_progress_update`
(api.rs lines 602-626): clamp `progress` to `total`; for positive
`total` remap the ratio into the 50-90 band (`50 + base * 0.4`,
capped at `90.0`) and truncate to an integer (`as u32`); for zero
`total` the fixed value 50.  The `f64` arithmetic is modelled in `ℚ`;
at the dyadic test points of the specification the two agree
exactly. -/
def emit_progress_percent (progress total : ℕ) : ℕ :=
  let clamped := min progress total
  if 0 < total then
    let base : ℚ := (clamped : ℚ) / (total : ℚ) * 100
    let mapped : ℚ := 50 + base * (2 / 5)
    (⌊min mapped 90⌋).toNat
  else 50

/-- The event `emit_progress_update` publishes: a `sending` event on
the 0-100 scale with the remapped percentage. -/
def emit_progress_update (progress total : ℕ) : ProgressEvent :=
  ⟨"sending", emit_progress_percent progress total, 100, none, none⟩

/-- Environment for `initialize_new` / `initialize_new_with_info`:
the external configuration resolver and engine constructor.
`create` returns the latest block height on success (the
configuration value itself is folded into the closures), `newClient`
is `LightClient::new(&config, birthday)` as a function of the
birthday argument. -/
structure CreateEnv where
  getServer : String → String
  create : String → Option String → Except String ℕ
  newClient : ℕ → Except String ClientM

/-- `initialize_new` (api.rs lines 52-86): resolve configuration,
construct an engine at birthday `latest_block_height.saturating_sub(100)`
(`ℕ` truncated subtraction), fetch the seed phrase, install the
engine in the registry and return the raw seed response.  Any failure
returns `"Error: ..."` and leaves the registry unchanged. -/
def initialize_new (env : CreateEnv) (reg : Option ClientM) (server_uri : String)
    (wallet_dir : Option String) : String × Option ClientM :=
  let server := env.getServer server_uri
  match env.create server wallet_dir with
  | .error e => ("Error: " ++ e, reg)
  | .ok latest =>
    match env.newClient (latest - 100) with
    | .error e => ("Error: " ++ e, reg)
    | .ok lc =>
      match lc.seedPhraseSync with
      | .error e => ("Error: " ++ e, reg)
      | .ok seed => (seed, some lc)

/-- Scan for the unescaped closing quote, as the loop in
`initialize_new_with_info` (api.rs lines 123-138) does: returns the
index of the first `"` not preceded by a pending backslash escape,
and 0 when the scan runs out (the Rust `end` variable keeps its
initial 0). -/
def findCloseAux : List Char → Bool → ℕ → ℕ
  | [], _, _ => 0
  | c :: cs, escaped, i =>
    if escaped then findCloseAux cs false (i + 1)
    else if c = '\\' then findCloseAux cs true (i + 1)
    else if c = '"' then i
    else findCloseAux cs false (i + 1)

/-- First index at which `needle` occurs in the remaining haystack
(Rust `str::find` on a literal pattern). -/
def findSubAux (needle : List Char) : List Char → ℕ → Option ℕ
  | [], i => if List.isPrefixOf needle [] then some i else none
  | c :: cs, i =>
    if List.isPrefixOf needle (c :: cs) then some i else findSubAux needle cs (i + 1)

/-- Rust `str::find(sub)` / `str::contains(sub)` support. -/
def findSub (hay needle : List Char) : Option ℕ :=
  findSubAux needle hay 0

/-- The seed extraction of `initialize_new_with_info` (api.rs lines
114-149): if the seed response contains `"seed":`, locate
`"seed":"`, skip its 8 characters and take up to the first unescaped
quote; on any failure of that scan the whole response is returned
unchanged. -/
def extractSeed (seed_response : String) : String :=
  let cs := seed_response.data
  if (findSub cs ("\"seed\":").data).isSome then
    match findSub cs ("\"seed\":\"").data with
    | some start_idx =>
      let start := start_idx + 8
      let remaining := cs.drop start
      let e := findCloseAux remaining false 0
      if 0 < e then String.mk (remaining.take e) else seed_response
    | none => seed_response
  else seed_response

/-- `initialize_new_with_info` (api.rs lines 89-165): as
`initialize_new`, but the birthday `latest - 100` is bound explicitly
and the result is the JSON object carrying the extracted seed phrase,
the chosen birthday and the observed latest block height. -/
def initialize_new_with_info (env : CreateEnv) (reg : Option ClientM)
    (server_uri : String) (wallet_dir : Option String) : String × Option ClientM :=
  let server := env.getServer server_uri
  match env.create server wallet_dir with
  | .error e => ("Error: " ++ e, reg)
  | .ok latest =>
    let birthday := latest - 100
    match env.newClient birthday with
    | .error e => ("Error: " ++ e, reg)
    | .ok lc =>
      match lc.seedPhraseSync with
      | .error e => ("Error: " ++ e, reg)
      | .ok seed_response =>
        let seed := extractSeed seed_response
        ("\x7b\"seed\": \"" ++ seed ++ "\", \"birthday\": " ++ toString birthday
          ++ ", \"latest_block\": " ++ toString latest ++ "\x7d", some lc)

/-- The on-disk world visible to the restore path: whether a wallet
file exists at the resolved path (`config.wallet_exists()` /
`config.get_wallet_path()`). -/
structure FsState where
  walletExists : Bool
deriving DecidableEq

/-- Environment for `initialize_from_phrase`: configuration resolver
and `LightClient::new_from_phrase(seed_phrase, &config, birthday, false)`. -/
structure RestoreEnv where
  getServer : String → String
  create : String → Option String → Except String ℕ
  newFromPhrase : String → ℕ → Bool → Except String ClientM

/-- `initialize_from_phrase` (api.rs lines 252-297).  The overwrite
branch (lines 266-270) is rendered exactly as the source has it: when
`overwrite && config.wallet_exists()` it binds the wallet path to an
unused local and performs no file operation, so the filesystem
component of the state is returned unchanged on every path.  On
success the constructed engine is installed and `"OK"` returned. -/
def initialize_from_phrase (env : RestoreEnv) (fs : FsState) (reg : Option ClientM)
    (server_uri seed_phrase : String) (birthday : ℕ) (overwrite : Bool)
    (wallet_dir : Option String) : String × FsState × Option ClientM :=
  let server := env.getServer server_uri
  match env.create server wallet_dir with
  | .error e => ("Error: " ++ e, fs, reg)
  | .ok _latest =>
    let fs2 := if overwrite && fs.walletExists then fs else fs
    match env.newFromPhrase seed_phrase birthday false with
    | .error e => ("Error: " ++ e, fs2, reg)
    | .ok lc => ("OK", fs2, some lc)

/-- `initialize_from_phrase_simple` (api.rs lines 239-249): fixes
`birthday = 0`, `overwrite = true`, `wallet_dir = None` and
delegates. -/
def initialize_from_phrase_simple (env : RestoreEnv) (fs : FsState)
    (reg : Option ClientM) (server_uri seed_phrase : String) :
    String × FsState × Option ClientM :=
  let birthday : ℕ := 0
  let overwrite := true
  let wallet_dir : Option String := none
  initialize_from_phrase env fs reg server_uri seed_phrase birthday overwrite wallet_dir

/-- A `serde_json::Value` as far as `get_height` inspects it.
`numU n` is a number stored as an unsigned integer (serde_json's
`PosInt`); `numOther` is any other number (negative or floating),
for which `as_u64` yields `None`. -/
inductive JsonValue where
  | null
  | bool (b : Bool)
  | numU (n : ℕ)
  | numOther
  | str (s : String)
  | arr (elems : List JsonValue)
  | obj (fields : List (String × JsonValue))

/-- `serde_json` indexing `json["height"]`: field lookup on objects,
`Null` on a missing key or a non-object. -/
def JsonValue.index (j : JsonValue) (key : String) : JsonValue :=
  match j with
  | .obj fields =>
    match fields.find? (fun kv => kv.1 == key) with
    | some kv => kv.2
    | none => .null
  | _ => .null

/-- `serde_json::Value::as_u64`. -/
def JsonValue.as_u64 (j : JsonValue) : Option ℕ :=
  match j with
  | .numU n => some n
  | _ => none

/-- `get_height` (api.rs lines 436-447): dispatch the `height` verb,
parse the body (`serde_json::from_str`, modelled by the abstract
`parseJson` parameter), read `json["height"].as_u64()` and narrow
with `as u32` — rendered as `% 2 ^ 32`; every failure yields 0. -/
def get_height (parseJson : String → Option JsonValue) (reg : Option ClientM) : ℕ :=
  let result := execute reg "height" ""
  match parseJson result with
  | some j =>
    match (j.index "height").as_u64 with
    | some h => h % 2 ^ 32
    | none => 0
  | none => 0

/-- A concrete engine whose `do_send` succeeds; used to instantiate
closed statements. -/
def eng0 : ClientM where
  command := fun _ _ => "\x7b\x7d"
  doSend := fun _ _ _ => .ok "deadbeef"
  seedPhraseSync := .ok ""

/-- A concrete engine whose `do_send` fails; used to instantiate
closed statements. -/
def engErr : ClientM where
  command := fun _ _ => "\x7b\x7d"
  doSend := fun _ _ _ => .error "insufficient funds"
  seedPhraseSync := .error "no seed"

/-- A concrete engine returning a fixed seed response. -/
def clientSeed : ClientM where
  command := fun _ _ => ""
  doSend := fun _ _ _ => .error ""
  seedPhraseSync := .ok "\x7b\"seed\":\"abc def\"\x7d"

/-- A concrete creation environment: chain tip at height 1000,
engine construction succeeding with `clientSeed`. -/
def env1 : CreateEnv where
  getServer := fun s => s
  create := fun _ _ => .ok 1000
  newClient := fun _ => .ok clientSeed

/-- A concrete engine for the restore path. -/
def clientR : ClientM where
  command := fun _ _ => ""
  doSend := fun _ _ _ => .error ""
  seedPhraseSync := .ok ""

/-- A concrete restore environment whose construction succeeds. -/
def envR : RestoreEnv where
  getServer := fun s => s
  create := fun _ _ => .ok 500
  newFromPhrase := fun _ _ _ => .ok clientR

/-- A filesystem state in which a wallet file already exists at the
resolved path. -/
def fsWithWallet : FsState := ⟨true⟩

/-- A parse oracle returning a `height` field that overflows `u32`. -/
def parseBig : String → Option JsonValue :=
  fun _ => some (.obj [("height", .numU 4294967296)])

/-- A parse oracle returning the `height` field 123. -/
def parse123 : String → Option JsonValue :=
  fun _ => some (.obj [("height", .numU 123)])

/-! ## Claims -/

/-- C5: for every verb and argument string, a dispatch call made while
the engine registry slot is empty returns exactly the string
`\x7b"error": "Wallet not initialized"\x7d` as a normal result.  In the
embedding `execute` is a total function, so the branch is a normal
value-returning path, never a panic. -/
theorem C5_dispatch_uninitialized (command args : String) :
    execute none command args = "\x7b\"error\": \"Wallet not initialized\"\x7d" := rfl

/-- C6: dispatch tokenizes the argument string by whitespace, except
that an empty argument string yields zero tokens and a `send` verb
whose argument starts with `[` is forwarded as one token equal to the
whole string; the three concrete dispatches of the claim pass exactly
the stated token lists, and `execute` hands the engine exactly
`tokenize command args`. -/
theorem C6_tokenization :
    (∀ cmd, tokenize cmd "" = [])
    ∧ (∀ args, args.data.isEmpty = false → startsWithBracket args = true →
        tokenize "send" args = [args])
    ∧ (∀ cmd args, args.data.isEmpty = false → (cmd == "send" && startsWithBracket args) = false →
        tokenize cmd args = splitWhitespace args)
    ∧ tokenize "send" "[\x7b\"address\":\"z1...\",\"amount\":5\x7d]"
        = ["[\x7b\"address\":\"z1...\",\"amount\":5\x7d]"]
    ∧ tokenize "balance" "" = []
    ∧ tokenize "new" "z" = ["z"]
    ∧ (∀ lc cmd args, execute (some lc) cmd args = lc.command cmd (tokenize cmd args)) := by
  refine ⟨fun cmd => rfl, ?_, ?_, by decide, rfl, by decide, fun lc cmd args => rfl⟩
  · intro args h1 h2
    simp [tokenize, h1, h2]
  · intro cmd args h1 h2
    simp [tokenize, h1, h2]

/-- Witness for C6: the hypothesis-bearing branches evaluated at
concrete inputs. -/
theorem C6_tokenization_witness :
    tokenize "send" "[1]" = ["[1]"] ∧ tokenize "list" "a b" = splitWhitespace "a b" :=
  ⟨C6_tokenization.2.1 "[1]" (by decide) (by decide),
   C6_tokenization.2.2.1 "list" "a b" (by decide) (by decide)⟩

/-- C10: for every environment, filesystem, registry, server URI and
seed phrase, `initialize_from_phrase_simple(server_uri, seed_phrase)`
returns the same result and has the same effect on the filesystem and
the engine registry as
`initialize_from_phrase(server_uri, seed_phrase, 0, true, None)` —
the source function is exactly this delegation. -/
theorem C10_simple_delegates (env : RestoreEnv) (fs : FsState) (reg : Option ClientM)
    (server_uri seed_phrase : String) :
    initialize_from_phrase_simple env fs reg server_uri seed_phrase
      = initialize_from_phrase env fs reg server_uri seed_phrase 0 true none := rfl

/-- C1 (code bug): `initialize_from_phrase` with `overwrite = true`
and a wallet file present at the resolved path never removes the file
— the overwrite branch (api.rs lines 266-270) only binds the path.
At the concrete failing input the call succeeds with `"OK"`, installs
the new engine, and the old wallet file still exists; in general the
filesystem component is returned unchanged by every path of the
function. -/
theorem C1_overwrite_never_deletes :
    initialize_from_phrase envR fsWithWallet none "srv" "seed words" 0 true none
      = ("OK", fsWithWallet, some clientR)
    ∧ fsWithWallet.walletExists = true
    ∧ (∀ env fs reg server phrase birthday ow dir,
        (initialize_from_phrase env fs reg server phrase birthday ow dir).2.1 = fs) := by
  refine ⟨rfl, rfl, ?_⟩
  intro env fs reg server phrase birthday ow dir
  cases hc : env.create (env.getServer server) dir with
  | error e => simp [initialize_from_phrase, hc]
  | ok latest =>
    cases hn : env.newFromPhrase phrase birthday false with
    | error e => simp [initialize_from_phrase, hc, hn]
    | ok lc => simp [initialize_from_phrase, hc, hn]

/-- C2 counterexample: at the concrete negative-amount input, the
trace published by `send_transaction` is a `sending`-status event
followed by the `error`-status event, so a `sending` event *is*
published before the error event, contrary to the claim. -/
theorem C2_counterexample :
    ((sendTrace (some eng0) "zaddr" (-1) none).takeWhile (fun ev => ev.status != "error")).any
        (fun ev => ev.status == "sending") = true
    ∧ (sendTrace (some eng0) "zaddr" (-1) none).map (fun ev => ev.status)
        = ["sending", "error"] := by decide

/-- C2 (amended): with a non-empty registry and a negative amount,
`send_transaction` returns the error result
`\x7b"error": "Invalid amount: cannot be negative"\x7d` without any
engine call (the right-hand side does not depend on the engine `lc`),
and publishes exactly two events: the initial `sending` progress-0
event followed by exactly one `error`-status event; no
`completed`-status event is published. -/
theorem C2_negative_amount (lc : ClientM) (address : String) (memo : Option String)
    (amount : ℤ) (h : amount < 0) :
    send_transaction (some lc) address amount memo
      = ("\x7b\"error\": \"Invalid amount: cannot be negative\"\x7d",
         [⟨"sending", 0, 100, none, none⟩,
          ⟨"error", 0, 100, some "Invalid amount", none⟩]) := by
  simp [send_transaction, h]

/-- Witness for C2: the amended theorem evaluated at amount `-1`. -/
theorem C2_negative_amount_witness :
    send_transaction (some eng0) "zaddr" (-1) none
      = ("\x7b\"error\": \"Invalid amount: cannot be negative\"\x7d",
         [⟨"sending", 0, 100, none, none⟩,
          ⟨"error", 0, 100, some "Invalid amount", none⟩]) :=
  C2_negative_amount eng0 "zaddr" none (-1) (by decide)

/-- C3 counterexample: publishing on the channel installed by
`init_progress_stream` — which has zero live receivers, its local
receiver being dropped — returns `"Error: channel closed"`, not
success; and publishing on a never-initialized relay returns
`"Error: No sender initialized"` and leaves the relay uninitialized
rather than lazily installing a channel. -/
theorem C3_counterexample :
    (send_progress_update (init_progress_stream ⟨none⟩).2 "ev").1 = "Error: channel closed"
    ∧ (send_progress_update (init_progress_stream ⟨none⟩).2 "ev").1 ≠ "OK"
    ∧ send_progress_update ⟨none⟩ "ev" = ("Error: No sender initialized", ⟨none⟩) := by
  decide

/-- C3 (amended): publish succeeds exactly when a channel is
installed and at least one subscriber is live; with an installed
channel and zero subscribers it returns `"Error: channel closed"`;
with no channel ever installed it returns
`"Error: No sender initialized"` and does not initialize a channel
(lazy initialization exists only on the polling side,
`get_next_progress_update`); `init_progress_stream` always succeeds
and installs a channel with zero live receivers. -/
theorem C3_publish_semantics :
    (∀ n data, send_progress_update ⟨some (n + 1)⟩ data = ("OK", ⟨some (n + 1)⟩))
    ∧ (∀ data, send_progress_update ⟨some 0⟩ data = ("Error: channel closed", ⟨some 0⟩))
    ∧ (∀ data, send_progress_update ⟨none⟩ data = ("Error: No sender initialized", ⟨none⟩))
    ∧ (∀ st, init_progress_stream st = ("OK", ⟨some 0⟩)) := by
  refine ⟨?_, fun data => rfl, fun data => rfl, fun st => rfl⟩
  intro n data
  simp [send_progress_update]

/-- C4 counterexample: when the engine's `do_send` fails, the trace of
published progress values is `[0, 0, 10, 0]` — the terminal error
event regresses to progress 0 after the progress-10 event — so the
sequence is not non-decreasing from first to last. -/
theorem C4_counterexample :
    (sendTrace (some engErr) "zaddr" 1 none).map (fun ev => ev.progress) = [0, 0, 10, 0]
    ∧ nonDecrB ((sendTrace (some engErr) "zaddr" 1 none).map (fun ev => ev.progress))
        = false := by decide

/-- C4 (amended): for any single `send_transaction` invocation, the
progress values of its `sending`/`completed` events are
non-decreasing; the trace ends either at progress 100 with status
`completed` or at an `error`-status event; every `error`-status event
carries progress 0 (so only a terminal error regresses the full
sequence); and no published progress exceeds the published total. -/
theorem C4_progress_monotone (reg : Option ClientM) (address : String) (amount : ℤ)
    (memo : Option String) :
    nonDecrB ((okEvents (sendTrace reg address amount memo)).map (fun ev => ev.progress)) = true
    ∧ terminalOkB (sendTrace reg address amount memo) = true
    ∧ (sendTrace reg address amount memo).all (fun ev => Nat.ble ev.progress ev.total) = true
    ∧ (sendTrace reg address amount memo).all
        (fun ev => (ev.status != "error") || (ev.progress == 0)) = true := by
  cases reg with
  | none => refine ⟨rfl, rfl, rfl, rfl⟩
  | some lc =>
    by_cases h : amount < 0
    · refine ⟨?_, ?_, ?_, ?_⟩ <;>
        simp [sendTrace, send_transaction, h, okEvents, nonDecrB, terminalOkB, lastEvent]
    · cases hs : lc.doSend address amount.toNat memo with
      | ok txid =>
        refine ⟨?_, ?_, ?_, ?_⟩ <;>
          simp [sendTrace, send_transaction, h, hs, okEvents, nonDecrB, terminalOkB, lastEvent]
      | error e =>
        refine ⟨?_, ?_, ?_, ?_⟩ <;>
          simp [sendTrace, send_transaction, h, hs, okEvents, nonDecrB, terminalOkB, lastEvent]

/-- C9 counterexample: with a body whose `height` field is the
unsigned integer `2 ^ 32 = 4294967296`, `get_height` returns 0 (the
`as u32` cast truncates), not the parsed integer. -/
theorem C9_counterexample :
    get_height parseBig (some eng0) = 0
    ∧ ((JsonValue.obj [("height", JsonValue.numU 4294967296)]).index "height").as_u64
        = some 4294967296
    ∧ (4294967296 : ℕ) ≠ 0 := by decide

/-- C9 (amended): `get_height` returns the unsigned integer parsed
from the `height` field of the JSON body returned by dispatching the
`height` verb, reduced modulo `2 ^ 32` (the code narrows the `u64`
with `as u32`), and returns 0 whenever the body is not valid JSON,
the field is absent (`index` yields `null`), or the field is not an
unsigned integer. -/
theorem C9_get_height (parseJson : String → Option JsonValue) (reg : Option ClientM) :
    (∀ j h, parseJson (execute reg "height" "") = some j →
        (j.index "height").as_u64 = some h → get_height parseJson reg = h % 2 ^ 32)
    ∧ (parseJson (execute reg "height" "") = none → get_height parseJson reg = 0)
    ∧ (∀ j, parseJson (execute reg "height" "") = some j →
        (j.index "height").as_u64 = none → get_height parseJson reg = 0) := by
  refine ⟨?_, ?_, ?_⟩
  · intro j h hp hu
    simp [get_height, hp, hu]
  · intro hp
    simp [get_height, hp]
  · intro j hp hu
    simp [get_height, hp, hu]

/-- Witness for C9: a body carrying `height` 123 yields
`123 % 2 ^ 32 = 123`. -/
theorem C9_get_height_witness :
    get_height parse123 (some eng0) = 123 % 2 ^ 32 ∧ (123 : ℕ) % 2 ^ 32 = 123 :=
  ⟨(C9_get_height parse123 (some eng0)).1
      (JsonValue.obj [("height", JsonValue.numU 123)]) 123 rfl rfl,
   by decide⟩

/-- C8: on every successful run (configuration resolves with latest
height `latest`, the engine constructor succeeds, the seed phrase
call succeeds), both `initialize_new` and `initialize_new_with_info`
construct the engine by calling the constructor at birthday
`latest - 100` (`ℕ` truncated subtraction, i.e. `saturating_sub`),
install exactly that engine in the registry, and
`initialize_new_with_info` returns the JSON object carrying the
extracted seed phrase, the chosen birthday `latest - 100` and the
observed latest chain height.  The environment is constrained only at
birthday `latest - 100`, so provability forces the construction call
to use exactly that height. -/
theorem C8_birthday_margin (env : CreateEnv) (reg : Option ClientM)
    (server_uri : String) (wallet_dir : Option String) (latest : ℕ) (lc : ClientM)
    (s : String)
    (hc : env.create (env.getServer server_uri) wallet_dir = .ok latest)
    (hn : env.newClient (latest - 100) = .ok lc)
    (hs : lc.seedPhraseSync = .ok s) :
    initialize_new env reg server_uri wallet_dir = (s, some lc)
    ∧ initialize_new_with_info env reg server_uri wallet_dir
        = ("\x7b\"seed\": \"" ++ extractSeed s ++ "\", \"birthday\": "
            ++ toString (latest - 100) ++ ", \"latest_block\": " ++ toString latest
            ++ "\x7d", some lc) := by
  constructor
  · simp [initialize_new, hc, hn, hs]
  · simp [initialize_new_with_info, hc, hn, hs]

/-- Witness for C8: a concrete environment with chain tip 1000; the
engine is constructed at birthday 900 and the seed `abc def` is
extracted out of the engine's JSON seed response. -/
theorem C8_birthday_margin_witness :
    initialize_new env1 none "https://srv" none
      = ("\x7b\"seed\":\"abc def\"\x7d", some clientSeed)
    ∧ initialize_new_with_info env1 none "https://srv" none
        = ("\x7b\"seed\": \"abc def\", \"birthday\": 900, \"latest_block\": 1000\x7d",
           some clientSeed)
    ∧ extractSeed "\x7b\"seed\":\"abc def\"\x7d" = "abc def" := by
  have h := C8_birthday_margin env1 none "https://srv" none 1000 clientSeed
    "\x7b\"seed\":\"abc def\"\x7d" rfl rfl rfl
  refine ⟨h.1, ?_, by decide⟩
  rw [h.2]
  congr 1

/-- C7: `emit_progress_update(processed, total)` clamps `processed`
to at most `total` (the result depends only on `min processed total`),
for positive `total` maps the ratio linearly into the 50-90 sub-range
and caps it at 90 (the result always lies in `[50, 90]`), and for
`total = 0` yields exactly 50; in particular `(1, 2)` publishes
progress 70 and `(0, 0)` publishes progress 50, each as a
`sending`-status event on the 0-100 scale. -/
theorem C7_remap_correct :
    emit_progress_percent 1 2 = 70
    ∧ emit_progress_percent 0 0 = 50
    ∧ (∀ p, emit_progress_percent p 0 = 50)
    ∧ (∀ p t, emit_progress_percent p t = emit_progress_percent (min p t) t)
    ∧ (∀ p t, 0 < t → 50 ≤ emit_progress_percent p t ∧ emit_progress_percent p t ≤ 90)
    ∧ emit_progress_update 1 2 = ⟨"sending", 70, 100, none, none⟩
    ∧ emit_progress_update 0 0 = ⟨"sending", 50, 100, none, none⟩ := by
  have h12 : emit_progress_percent 1 2 = 70 := by
    norm_num [emit_progress_percent]
    decide
  have h00 : emit_progress_percent 0 0 = 50 := by
    norm_num [emit_progress_percent]
  refine ⟨h12, h00, fun p => rfl, ?_, ?_, ?_, ?_⟩
  · intro p t
    simp [emit_progress_percent, min_assoc]
  · intro p t ht
    simp only [emit_progress_percent, if_pos ht]
    have hct : min p t ≤ t := min_le_right p t
    have htQ : (0:ℚ) < (t:ℚ) := by exact_mod_cast ht
    have hb0 : (0:ℚ) ≤ ((min p t : ℕ) : ℚ) / (t:ℚ) * 100 := by positivity
    have hb1 : ((min p t : ℕ) : ℚ) / (t:ℚ) ≤ 1 := by
      rw [div_le_one htQ]; exact_mod_cast hct
    have hm50 : (50:ℚ) ≤ 50 + (((min p t : ℕ) : ℚ) / (t:ℚ) * 100) * (2/5) := by nlinarith
    have hm90 : 50 + (((min p t : ℕ) : ℚ) / (t:ℚ) * 100) * (2/5) ≤ 90 := by nlinarith
    have hmin50 : (50:ℚ) ≤ min (50 + (((min p t : ℕ) : ℚ) / (t:ℚ) * 100) * (2/5)) 90 :=
      le_min hm50 (by norm_num)
    have hmin90 : min (50 + (((min p t : ℕ) : ℚ) / (t:ℚ) * 100) * (2/5)) 90 ≤ 90 :=
      min_le_right _ _
    have hf50 : (50:ℤ) ≤ ⌊min (50 + (((min p t : ℕ) : ℚ) / (t:ℚ) * 100) * (2/5)) 90⌋ :=
      Int.le_floor.mpr (by exact_mod_cast hmin50)
    have hf90 : ⌊min (50 + (((min p t : ℕ) : ℚ) / (t:ℚ) * 100) * (2/5)) 90⌋ ≤ 90 := by
      have h := Int.floor_mono hmin90
      have h90 : ⌊(90:ℚ)⌋ = 90 := by norm_num
      omega
    constructor <;> omega
  · simp [emit_progress_update, h12]
  · simp [emit_progress_update, h00]

/-- Witness for C7: the 50-90 band bound evaluated at `(3, 4)`
(remapped percentage 80). -/
theorem C7_remap_correct_witness :
    (50 ≤ emit_progress_percent 3 4 ∧ emit_progress_percent 3 4 ≤ 90)
    ∧ emit_progress_percent 3 4 = 80 := by
  refine ⟨C7_remap_correct.2.2.2.2.1 3 4 (by decide), ?_⟩
  norm_num [emit_progress_percent]
  decide
